import Mathlib

/-!
A shallow embedding of the `cards` crate (a wgpu/winit card renderer) and
proofs about it.  Rust `f32` arithmetic is modelled by exact arithmetic
(`ℚ` where decidability matters, `ℝ` where square roots appear), machine
integers by `Nat`/`Int`/`Fin`, and fallible operations by `Option`.
-/

namespace Cards

/-! ## `wgpu::VertexFormat` (the closed enumeration matched by `util.rs`) -/

inductive VertexFormat where
  | Float16x2 | Float16x4
  | Float32 | Float32x2 | Float32x3 | Float32x4
  | Float64 | Float64x2 | Float64x3 | Float64x4
  | Sint16x2 | Sint16x4
  | Sint32 | Sint32x2 | Sint32x3 | Sint32x4
  | Sint8x2 | Sint8x4
  | Snorm16x2 | Snorm16x4 | Snorm8x2 | Snorm8x4
  | Uint16x2 | Uint16x4
  | Uint32 | Uint32x2 | Uint32x3 | Uint32x4
  | Uint8x2 | Uint8x4
  | Unorm16x2 | Unorm16x4 | Unorm8x2 | Unorm8x4
  deriving DecidableEq, Fintype, Repr

/--
`util.rs` `vertex_format_size`: the per-format byte size (`size_of` of the
corresponding Rust array type).  The two `todo!()` branches — which abort
(at const-evaluation time when reached from a `const` context) — are
modelled by `none`.
-/
def vertex_format_size : VertexFormat → Option Nat
  | .Float16x2 => none
  | .Float16x4 => none
  | .Float32 => some 4
  | .Float32x2 => some 8
  | .Float32x3 => some 12
  | .Float32x4 => some 16
  | .Float64 => some 8
  | .Float64x2 => some 16
  | .Float64x3 => some 24
  | .Float64x4 => some 32
  | .Sint16x2 => some 4
  | .Sint16x4 => some 8
  | .Sint32 => some 4
  | .Sint32x2 => some 8
  | .Sint32x3 => some 12
  | .Sint32x4 => some 16
  | .Sint8x2 => some 2
  | .Sint8x4 => some 4
  | .Snorm16x2 => some 4
  | .Snorm16x4 => some 8
  | .Snorm8x2 => some 2
  | .Snorm8x4 => some 4
  | .Uint16x2 => some 4
  | .Uint16x4 => some 8
  | .Uint32 => some 4
  | .Uint32x2 => some 8
  | .Uint32x3 => some 12
  | .Uint32x4 => some 16
  | .Uint8x2 => some 2
  | .Uint8x4 => some 4
  | .Unorm16x2 => some 4
  | .Unorm16x4 => some 8
  | .Unorm8x2 => some 2
  | .Unorm8x4 => some 4

/-! ## `card.rs`: suits, cards and card instances -/

inductive Suit where
  | Clubs | Spades | Hearts | Diamonds
  deriving DecidableEq, Fintype, Repr

/-- `card.rs` `Suit::doppelkopf_suit_strength`. -/
def Suit.doppelkopf_suit_strength : Suit → Nat
  | .Clubs => 4
  | .Spades => 3
  | .Hearts => 2
  | .Diamonds => 1

/-- `card.rs` `Suit::texture_index` (a `u8`, modelled as `Nat`). -/
def Suit.texture_index : Suit → Nat
  | .Clubs => 3
  | .Spades => 2
  | .Hearts => 0
  | .Diamonds => 1

/-- `card.rs` `type Rank = u8`. -/
abbrev Rank := Fin 256

/-- `card.rs` `Card`; the position is a `Vector3<i32>`. -/
structure Card where
  position : Int × Int × Int
  facedown : Bool
  rank : Rank
  suit : Suit

/--
`cgmath::Matrix4::from_translation`, written in row-vector-free
mathematical (row, column) layout: the identity with the translation in the
last column.
-/
def from_translation (p : ℚ × ℚ × ℚ) : Matrix (Fin 4) (Fin 4) ℚ :=
  !![1, 0, 0, p.1;
     0, 1, 0, p.2.1;
     0, 0, 1, p.2.2;
     0, 0, 0, 1]

/--
The numeric cast `Vector3<i32> → Option<Vector3<f32>>` performed by
`cgmath`'s `cast` (via `num_traits::cast`): for `i32 → f32` it always
returns `Some` (the value is modelled exactly here).
-/
def castVec3 (v : Int × Int × Int) : Option (ℚ × ℚ × ℚ) :=
  some ((v.1 : ℚ), (v.2.1 : ℚ), (v.2.2 : ℚ))

/-- `card.rs` `Instance`: the raw per-card instance record. -/
structure Instance where
  model : Matrix (Fin 4) (Fin 4) ℚ
  rank : Nat
  suit : Nat
  facedown : Nat

/--
`card.rs` `Card::to_instance`: build the raw instance; the only fallible
step is the position cast (`chain_err` wraps its failure), modelled by
`Option`.
-/
def Card.to_instance (c : Card) : Option Instance :=
  match castVec3 c.position with
  | none => none
  | some p =>
    some { model := from_translation p
           rank := c.rank.val
           suit := c.suit.texture_index
           facedown := if c.facedown then 1 else 0 }

/-! ## `util.rs`: the `attributes!` vertex-layout builder -/

/-- `wgpu::VertexAttribute` (offsets and shader locations as `Nat`). -/
structure VertexAttribute where
  offset : Nat
  shader_location : Nat
  format : VertexFormat
  deriving DecidableEq, Repr

/--
The body of the `attributes!` macro in `util.rs`: starting from a shader
location and a byte offset, emit one descriptor per format, bumping the
location by one and the offset by `vertex_format_size` of the format.
A format whose size is `todo!()` aborts the (const-time) computation,
modelled by `none`.
-/
def attributesFrom (loc off : Nat) : List VertexFormat → Option (List VertexAttribute)
  | [] => some []
  | f :: fs =>
    match vertex_format_size f with
    | none => none
    | some sz =>
      match attributesFrom (loc + 1) (off + sz) fs with
      | none => none
      | some rest => some (⟨off, loc, f⟩ :: rest)

/--
Modelled from the spec: the `start_location` arm of the `attributes!`
macro (the arm `card.rs` invokes as `attributes!(start_location 5; ...)`)
is missing from `src/util.rs`, which only shows the base-0 arm.  Per the
spec the builder takes "a base slot index and an ordered sequence of N
field formats" and produces descriptors with `slot = base + i`; the
running-offset logic is taken from the macro body in `src/util.rs`.
-/
def attributes (start_location : Nat) (fs : List VertexFormat) :
    Option (List VertexAttribute) :=
  attributesFrom start_location 0 fs

/-- Total sum of the byte sizes of a format list (unsupported count 0). -/
def sumSizes (fs : List VertexFormat) : Nat :=
  (fs.map (fun f => (vertex_format_size f).getD 0)).sum

/--
The field formats of `card.rs` `Instance::BUFFER_LAYOUT` (base slot 5):
four `Float32x4` matrix columns and three `Uint32` scalars.
-/
def instanceBufferFormats : List VertexFormat :=
  [.Float32x4, .Float32x4, .Float32x4, .Float32x4, .Uint32, .Uint32, .Uint32]

/--
`size_of::<Instance>()` for `card.rs` `Instance` (`repr(C)`: a 4×4 `f32`
matrix followed by three `u32` fields), the declared `array_stride`.
-/
def instanceArrayStride : Nat := 16 * 4 + 3 * 4

/--
The field formats of `card.rs` `Vertex::BUFFER_LAYOUT` (base slot 0):
a `Float32x3` position and a `Float32x2` texture coordinate.
-/
def vertexBufferFormats : List VertexFormat :=
  [.Float32x3, .Float32x2]

/-- `size_of::<Vertex>()` for `card.rs` `Vertex`, the declared stride. -/
def vertexArrayStride : Nat := 3 * 4 + 2 * 4

/-! ## `camera.rs`: camera, view-projection and controller

`f32` is modelled by `ℝ` here because `cgmath`'s `normalize` takes a
square root. -/

structure Vec3 where
  x : ℝ
  y : ℝ
  z : ℝ

def Vec3.add (a b : Vec3) : Vec3 := ⟨a.x + b.x, a.y + b.y, a.z + b.z⟩

def Vec3.sub (a b : Vec3) : Vec3 := ⟨a.x - b.x, a.y - b.y, a.z - b.z⟩

def Vec3.dot (a b : Vec3) : ℝ := a.x * b.x + a.y * b.y + a.z * b.z

def Vec3.cross (a b : Vec3) : Vec3 :=
  ⟨a.y * b.z - a.z * b.y, a.z * b.x - a.x * b.z, a.x * b.y - a.y * b.x⟩

/-- `cgmath` `magnitude`: the Euclidean norm. -/
noncomputable def Vec3.magnitude (v : Vec3) : ℝ := Real.sqrt (v.dot v)

/-- `cgmath` `normalize`: divide every component by the magnitude. -/
noncomputable def Vec3.normalize (v : Vec3) : Vec3 :=
  ⟨v.x / v.magnitude, v.y / v.magnitude, v.z / v.magnitude⟩

def unit_x : Vec3 := ⟨1, 0, 0⟩

def unit_y : Vec3 := ⟨0, 1, 0⟩

def unit_z : Vec3 := ⟨0, 0, 1⟩

/--
`cgmath::Matrix4::look_at_rh(eye, center, up)`, transcribed from its
column-major constructor into mathematical (row, column) layout.
-/
noncomputable def look_at_rh (eye center up : Vec3) : Matrix (Fin 4) (Fin 4) ℝ :=
  let f := (center.sub eye).normalize
  let s := (f.cross up).normalize
  let u := s.cross f
  !![s.x, s.y, s.z, -(eye.dot s);
     u.x, u.y, u.z, -(eye.dot u);
     -f.x, -f.y, -f.z, eye.dot f;
     0, 0, 0, 1]

/-- `cgmath::ortho(l, r, b, t, n, f)` (the GL-style `[-1,1]` depth ortho). -/
noncomputable def ortho (l r b t n f : ℝ) : Matrix (Fin 4) (Fin 4) ℝ :=
  !![2 / (r - l), 0, 0, -((r + l) / (r - l));
     0, 2 / (t - b), 0, -((t + b) / (t - b));
     0, 0, -2 / (f - n), -((f + n) / (f - n));
     0, 0, 0, 1]

/-- `camera.rs` `OPENGL_TO_WGPU_MATRIX` (column-major source, row layout here). -/
noncomputable def OPENGL_TO_WGPU_MATRIX : Matrix (Fin 4) (Fin 4) ℝ :=
  !![1, 0, 0, 0;
     0, 1, 0, 0;
     0, 0, 0.5, 0.5;
     0, 0, 0, 1]

/-- `camera.rs` `Camera` (`eye` is a `Point2<f32>`). -/
structure Camera where
  eye : ℝ × ℝ
  aspect : ℝ
  zoom : ℝ
  znear : ℝ
  zfar : ℝ

/-- `camera.rs` `Camera::build_view_projection_matrix`. -/
noncomputable def Camera.build_view_projection_matrix (c : Camera) :
    Matrix (Fin 4) (Fin 4) ℝ :=
  let eye_3d : Vec3 := ⟨c.eye.1, c.eye.2, 0⟩
  let view := look_at_rh (eye_3d.add unit_z) eye_3d unit_y
  let horiz_aspect := c.aspect * c.zoom
  let proj := ortho (-horiz_aspect) horiz_aspect (-c.zoom) c.zoom c.znear c.zfar
  OPENGL_TO_WGPU_MATRIX * proj * view

/--
The matrix the claim describes, built from its words: correction matrix
applied last, the same orthographic projection, and a look-at view whose
eye point is at `z = 0` looking toward `z = -1` with up vector `+Y`.
-/
noncomputable def claimed_view_projection (c : Camera) :
    Matrix (Fin 4) (Fin 4) ℝ :=
  let view := look_at_rh ⟨c.eye.1, c.eye.2, 0⟩ ⟨c.eye.1, c.eye.2, -1⟩ unit_y
  let horiz_aspect := c.aspect * c.zoom
  let proj := ortho (-horiz_aspect) horiz_aspect (-c.zoom) c.zoom c.znear c.zfar
  OPENGL_TO_WGPU_MATRIX * proj * view

/--
The amended description: the eye point sits at `z = 1` (one unit in front
of the plane) looking toward `z = 0`, with up vector `+Y`.
-/
noncomputable def amended_view_projection (c : Camera) :
    Matrix (Fin 4) (Fin 4) ℝ :=
  let view := look_at_rh ⟨c.eye.1, c.eye.2, 1⟩ ⟨c.eye.1, c.eye.2, 0⟩ unit_y
  let horiz_aspect := c.aspect * c.zoom
  let proj := ortho (-horiz_aspect) horiz_aspect (-c.zoom) c.zoom c.znear c.zfar
  OPENGL_TO_WGPU_MATRIX * proj * view

/-! ### Keyboard events and the camera controller -/

/-- The `winit` key codes the controller distinguishes; every other key
code is collapsed into `OtherKey`. -/
inductive VirtualKeyCode where
  | W | A | S | D | Up | Down | Left | Right | Escape | OtherKey
  deriving DecidableEq, Repr

/-- `winit::event::ElementState`. -/
inductive ElementState where
  | Pressed | Released
  deriving DecidableEq, Repr

def ElementState.isPressed : ElementState → Bool
  | .Pressed => true
  | .Released => false

/-- The shapes of `winit::event::WindowEvent` that `process_events` can
distinguish: a keyboard input (with an optional decoded key code), or
anything else. -/
inductive WindowEvent where
  | KeyboardInput (state : ElementState) (virtual_keycode : Option VirtualKeyCode)
  | OtherWindowEvent
  deriving DecidableEq, Repr

/-- `camera.rs` `CameraController`. -/
structure CameraController where
  speed : ℝ
  is_forward_pressed : Bool
  is_backward_pressed : Bool
  is_left_pressed : Bool
  is_right_pressed : Bool

/-- `camera.rs` `CameraController::new`. -/
def CameraController.new (speed : ℝ) : CameraController :=
  ⟨speed, false, false, false, false⟩

/--
`camera.rs` `CameraController::process_events`: returns the updated
controller together with the `bool` the method returns (whether the event
was consumed).
-/
def CameraController.process_events (cc : CameraController) :
    WindowEvent → CameraController × Bool
  | .KeyboardInput st (some keycode) =>
    let is_pressed := st.isPressed
    match keycode with
    | .W | .Up => ({ cc with is_forward_pressed := is_pressed }, true)
    | .A | .Left => ({ cc with is_left_pressed := is_pressed }, true)
    | .S | .Down => ({ cc with is_backward_pressed := is_pressed }, true)
    | .D | .Right => ({ cc with is_right_pressed := is_pressed }, true)
    | _ => (cc, false)
  | _ => (cc, false)

def v2add (a b : ℝ × ℝ) : ℝ × ℝ := (a.1 + b.1, a.2 + b.2)

def v2sub (a b : ℝ × ℝ) : ℝ × ℝ := (a.1 - b.1, a.2 - b.2)

/-- `cgmath` `Vector2 * scalar`. -/
def v2smul (v : ℝ × ℝ) (s : ℝ) : ℝ × ℝ := (v.1 * s, v.2 * s)

def unit_x2 : ℝ × ℝ := (1, 0)

def unit_y2 : ℝ × ℝ := (0, 1)

/-- `camera.rs` `CameraController::update_camera`: four independent
guarded displacements, applied in source order. -/
def CameraController.update_camera (cc : CameraController) (c : Camera) : Camera :=
  let c := if cc.is_forward_pressed
    then { c with eye := v2add c.eye (v2smul unit_y2 cc.speed) } else c
  let c := if cc.is_backward_pressed
    then { c with eye := v2sub c.eye (v2smul unit_y2 cc.speed) } else c
  let c := if cc.is_right_pressed
    then { c with eye := v2add c.eye (v2smul unit_x2 cc.speed) } else c
  let c := if cc.is_left_pressed
    then { c with eye := v2sub c.eye (v2smul unit_x2 cc.speed) } else c
  c

/-- Whether `process_events` recognizes (and consumes) the event. -/
def recognizedEvent : WindowEvent → Bool
  | .KeyboardInput _ (some k) =>
    match k with
    | .W | .Up | .A | .Left | .S | .Down | .D | .Right => true
    | _ => false
  | _ => false

/--
The last press state delivered for a key set (specification side): fold
over the event list, replacing the accumulator whenever a keyboard event
for a key in `ks` arrives.
-/
def netKeyState (ks : List VirtualKeyCode) (init : Bool) :
    List WindowEvent → Bool
  | [] => init
  | .KeyboardInput st (some k) :: es =>
    netKeyState ks (if k ∈ ks then st.isPressed else init) es
  | _ :: es => netKeyState ks init es

def forwardKeys : List VirtualKeyCode := [.W, .Up]

def backwardKeys : List VirtualKeyCode := [.S, .Down]

def leftKeys : List VirtualKeyCode := [.A, .Left]

def rightKeys : List VirtualKeyCode := [.D, .Right]

/-- Feed a whole event sequence through `process_events`. -/
def applyEvents (cc : CameraController) (es : List WindowEvent) : CameraController :=
  es.foldl (fun c e => (c.process_events e).1) cc

/-! ## `state.rs` / `lib.rs`: application state, resize and the frame loop -/

/-- `winit::dpi::PhysicalSize<u32>`. -/
structure PhysicalSize where
  width : Nat
  height : Nat
  deriving DecidableEq, Repr

/-- `wgpu::SurfaceConfiguration`; the fields `resize` never touches are
kept abstract as `Nat` tokens. -/
structure SurfaceConfiguration where
  usage : Nat
  format : Nat
  width : Nat
  height : Nat
  present_mode : Nat
  alpha_mode : Nat
  view_formats : Nat
  deriving DecidableEq, Repr

/-- The `Camera` variant `state.rs` stores (it carries the viewport size;
`resize` only ever touches `viewport_size`). -/
structure StateCamera where
  eye : ℚ × ℚ
  viewport_size : PhysicalSize
  zoom : ℚ
  znear : ℚ
  zfar : ℚ
  deriving DecidableEq

/-- The `Camera` variant `lib.rs` stores (it carries an aspect ratio that
`resize` recomputes). -/
structure LibCamera where
  eye : ℚ × ℚ
  aspect : ℚ
  zoom : ℚ
  znear : ℚ
  zfar : ℚ
  deriving DecidableEq

/--
The observable part of `state.rs` `State` for resizing: stored size,
surface configuration and camera.  `rest` stands for every other field
(surface, device, queue, buffers, pipeline, bind groups, controller,
instances), none of which `resize` touches.
-/
structure State where
  config : SurfaceConfiguration
  size : PhysicalSize
  camera : StateCamera
  rest : Nat
  deriving DecidableEq

/--
`state.rs` `State::resize`: guarded on both dimensions positive; sets the
stored size, the configuration dimensions (then reconfigures the surface
with that configuration) and the camera viewport.  The trailing `info!`
log has no state effect.
-/
def State.resize (st : State) (new_size : PhysicalSize) : State :=
  if 0 < new_size.width ∧ 0 < new_size.height then
    { st with
      size := new_size
      config := { st.config with width := new_size.width, height := new_size.height }
      camera := { st.camera with viewport_size := new_size } }
  else st

/-- The observable part of `lib.rs` `State` for resizing. -/
structure LibState where
  config : SurfaceConfiguration
  size : PhysicalSize
  camera : LibCamera
  rest : Nat
  deriving DecidableEq

/-- `lib.rs` `State::resize`: as `state.rs`, but the camera update sets
`aspect = width as f32 / height as f32`. -/
def LibState.resize (st : LibState) (new_size : PhysicalSize) : LibState :=
  if 0 < new_size.width ∧ 0 < new_size.height then
    { st with
      size := new_size
      config := { st.config with width := new_size.width, height := new_size.height }
      camera := { st.camera with
                  aspect := (new_size.width : ℚ) / (new_size.height : ℚ) } }
  else st

/-- `wgpu::SurfaceError`. -/
inductive SurfaceError where
  | Timeout | Outdated | Lost | OutOfMemory
  deriving DecidableEq, Repr

/-- The `winit` control-flow decisions the loop can make. -/
inductive ControlFlow where
  | Poll | Wait | Exit
  deriving DecidableEq, Repr

/--
`lib.rs` `handle_redraw_event`, classified over the outcome of
`state.render()` (the preceding `state.update()` and the render itself
are performed before this classification; `st` is the state at that
point).  Returns the state afterwards, the control-flow decision
(`some Exit` terminates the loop) and the list of errors logged by
`eprintln`.
-/
def handle_redraw_event (st : LibState) (render_result : Except SurfaceError Unit) :
    LibState × Option ControlFlow × List SurfaceError :=
  match render_result with
  | .ok _ => (st, none, [])
  | .error .Lost => (st.resize st.size, none, [])
  | .error .OutOfMemory => (st, some .Exit, [])
  | .error e => (st, none, [e])

/-! ## `state.rs` `State::new`: the default 52-card grid -/

/-- `card.rs`: cards are 34×48. -/
def WIDTH : Nat := 34

def HEIGHT : Nat := 48

/-- `state.rs` local `Instance` (it only stores a position). -/
structure StateInstance where
  position : ℚ × ℚ × ℚ
  deriving DecidableEq, Repr

/--
The instance grid built in `state.rs` `State::new`:
`(0..4).flat_map(|suit| (0..13).map(|rank| ...))` with position
`(1.2 * WIDTH * (rank - 6), 1.2 * HEIGHT * (suit - 1.5), 0)`.
-/
def stateInstances : List StateInstance :=
  (List.range 4).flatMap fun (suit : Nat) =>
    (List.range 13).map fun (rank : Nat) =>
      { position := ((1.2 : ℚ) * (WIDTH : ℚ) * ((rank : ℚ) - 6.0),
                     (1.2 : ℚ) * (HEIGHT : ℚ) * ((suit : ℚ) - 1.5),
                     0) }

/-! ## Theorems -/

/--
C2: the suit-to-texture-index mapping is the fixed table Hearts→0,
Diamonds→1, Spades→2, Clubs→3, and it is a bijection from the four suits
onto `{0, 1, 2, 3}`: every suit gets exactly one index below 4, no two
suits share an index, and every index below 4 is hit.
-/
theorem texture_index_fixed_bijection :
    Suit.texture_index .Hearts = 0 ∧ Suit.texture_index .Diamonds = 1 ∧
    Suit.texture_index .Spades = 2 ∧ Suit.texture_index .Clubs = 3 ∧
    (∀ s : Suit, Suit.texture_index s < 4) ∧
    (∀ s t : Suit, Suit.texture_index s = Suit.texture_index t → s = t) ∧
    (∀ n < 4, ∃ s : Suit, Suit.texture_index s = n) := by
  decide

/--
C9: `vertex_format_size` fails (hits a `todo!()` branch) exactly on the
two unsupported half-float formats; every format the program passes to it
(those of the two buffer layouts in `card.rs`) is in the supported subset
and gets a fixed positive constant size, so the error branch is
unreachable for the program and an unsupported format would abort at
build (const-evaluation) time, not at runtime.
-/
theorem vertex_format_size_total_for_program :
    (∀ f : VertexFormat,
      vertex_format_size f = none ↔ f = .Float16x2 ∨ f = .Float16x4) ∧
    (∀ f ∈ instanceBufferFormats ++ vertexBufferFormats,
      (vertex_format_size f).isSome) ∧
    (∀ f : VertexFormat, (vertex_format_size f).isSome →
      ∃ n, vertex_format_size f = some n ∧ 0 < n) := by
  decide

/--
C10: `Card::to_instance` always returns `Ok` (the `i32 → f32` position
cast never fails), and the produced record holds the translation matrix
of the cast position, the rank widened to `u32`, the suit's
`texture_index` widened to `u32`, and facedown as 1 or 0.
-/
theorem to_instance_ok_and_fields (c : Card) :
    c.to_instance = some
      { model := from_translation
          ((c.position.1 : ℚ), (c.position.2.1 : ℚ), (c.position.2.2 : ℚ))
        rank := c.rank.val
        suit := c.suit.texture_index
        facedown := if c.facedown then 1 else 0 } := rfl

/-- The grid position `state.rs` computes for loop indices `(suit, rank)`. -/
def gridRecord (s r : Nat) : StateInstance :=
  ⟨((1.2 : ℚ) * (WIDTH : ℚ) * ((r : ℚ) - 6.0),
    (1.2 : ℚ) * (HEIGHT : ℚ) * ((s : ℚ) - 1.5), 0)⟩

lemma gridX_inj {a b : Nat}
    (h : (1.2 : ℚ) * (WIDTH : ℚ) * ((a : ℚ) - 6.0) =
         (1.2 : ℚ) * (WIDTH : ℚ) * ((b : ℚ) - 6.0)) : a = b := by
  have hne : (1.2 : ℚ) * (WIDTH : ℚ) ≠ 0 := by norm_num [WIDTH]
  have h2 : (a : ℚ) - 6.0 = (b : ℚ) - 6.0 := mul_left_cancel₀ hne h
  have h3 : (a : ℚ) = (b : ℚ) := by linarith
  exact_mod_cast h3

lemma gridY_inj {a b : Nat}
    (h : (1.2 : ℚ) * (HEIGHT : ℚ) * ((a : ℚ) - 1.5) =
         (1.2 : ℚ) * (HEIGHT : ℚ) * ((b : ℚ) - 1.5)) : a = b := by
  have hne : (1.2 : ℚ) * (HEIGHT : ℚ) ≠ 0 := by norm_num [HEIGHT]
  have h2 : (a : ℚ) - 1.5 = (b : ℚ) - 1.5 := mul_left_cancel₀ hne h
  have h3 : (a : ℚ) = (b : ℚ) := by linarith
  exact_mod_cast h3

/--
C6: the default grid has exactly 52 instance records; for every
`suit < 4` and `rank < 13` the grid holds the record placed at
`X = 1.2 * WIDTH * (rank - 6)`, `Y = 1.2 * HEIGHT * (suit - 1.5)`,
`Z = 0` (with `WIDTH = 34`, `HEIGHT = 48`); every record arises that way;
and all 52 records are pairwise distinct, so each corresponds to a unique
`(rank, suit)` pair.
-/
theorem default_grid_52_cards :
    stateInstances.length = 52 ∧
    (∀ s < 4, ∀ r < 13, gridRecord s r ∈ stateInstances) ∧
    (∀ a ∈ stateInstances, ∃ s < 4, ∃ r < 13, a = gridRecord s r) ∧
    stateInstances.Nodup := by
  refine ⟨rfl, ?_, ?_, ?_⟩
  · intro s hs r hr
    exact List.mem_flatMap.mpr
      ⟨s, List.mem_range.mpr hs, List.mem_map.mpr ⟨r, List.mem_range.mpr hr, rfl⟩⟩
  · intro a ha
    obtain ⟨s, hsmem, hmap⟩ := List.mem_flatMap.mp ha
    obtain ⟨r, hrmem, rfl⟩ := List.mem_map.mp hmap
    exact ⟨s, List.mem_range.mp hsmem, r, List.mem_range.mp hrmem, rfl⟩
  · rw [stateInstances, List.nodup_flatMap]
    constructor
    · intro s _
      refine List.Nodup.map_on ?_ (List.nodup_range 13)
      intro x _ y _ h
      have hx : (1.2 : ℚ) * (WIDTH : ℚ) * ((x : ℚ) - 6.0) =
          (1.2 : ℚ) * (WIDTH : ℚ) * ((y : ℚ) - 6.0) :=
        congrArg (fun u : StateInstance => u.position.1) h
      exact gridX_inj hx
    · refine (List.pairwise_lt_range 4).imp ?_
      intro s t hst
      intro a ha hb
      obtain ⟨r, _, rfl⟩ := List.mem_map.mp ha
      obtain ⟨r2, _, heq⟩ := List.mem_map.mp hb
      have hy : (1.2 : ℚ) * (HEIGHT : ℚ) * ((t : ℚ) - 1.5) =
          (1.2 : ℚ) * (HEIGHT : ℚ) * ((s : ℚ) - 1.5) :=
        congrArg (fun u : StateInstance => u.position.2.1) heq
      exact absurd (gridY_inj hy).symm (Nat.ne_of_lt hst)

/--
C7: for both `State::resize` implementations (`state.rs` and `lib.rs`), a
reported size with a zero dimension is a no-op on the whole observable
state, and a fully positive size updates exactly the stored size, the
configuration dimensions and the camera viewport/aspect, leaving every
other field unchanged.
-/
theorem resize_zero_noop_positive_updates
    (st : State) (lst : LibState) (sz : PhysicalSize) :
    (sz.width = 0 ∨ sz.height = 0 →
      State.resize st sz = st ∧ LibState.resize lst sz = lst) ∧
    (0 < sz.width → 0 < sz.height →
      State.resize st sz =
        { st with
          size := sz
          config := { st.config with width := sz.width, height := sz.height }
          camera := { st.camera with viewport_size := sz } } ∧
      LibState.resize lst sz =
        { lst with
          size := sz
          config := { lst.config with width := sz.width, height := sz.height }
          camera := { lst.camera with
                      aspect := (sz.width : ℚ) / (sz.height : ℚ) } }) := by
  constructor
  · intro h
    have hng : ¬(0 < sz.width ∧ 0 < sz.height) := by
      rcases h with h | h <;> simp [h]
    simp [State.resize, LibState.resize, hng]
  · intro hw hh
    simp [State.resize, LibState.resize, hw, hh]

/--
C8: the redraw handler classifies the render result exactly as the claim
says: success continues unchanged; a lost surface reconfigures via
`resize` at the current stored size and continues; out-of-memory returns
the exit decision; any other surface error is logged and the frame
dropped with no resize and no retry.
-/
theorem redraw_result_classification (st : LibState) :
    handle_redraw_event st (.ok ()) = (st, none, []) ∧
    handle_redraw_event st (.error .Lost) = (st.resize st.size, none, []) ∧
    handle_redraw_event st (.error .OutOfMemory) = (st, some .Exit, []) ∧
    handle_redraw_event st (.error .Timeout) = (st, none, [.Timeout]) ∧
    handle_redraw_event st (.error .Outdated) = (st, none, [.Outdated]) :=
  ⟨rfl, rfl, rfl, rfl, rfl⟩

/--
C5: `update_camera` with only the forward flag set moves `eye.y` by
exactly `+speed` and leaves `eye.x` unchanged; with forward and backward
both set the net displacement is zero, and likewise for the left/right
pair on `eye.x`.
-/
theorem update_camera_net_displacement (c : Camera) (speed : ℝ) :
    ((CameraController.mk speed true false false false).update_camera c).eye
      = (c.eye.1, c.eye.2 + speed) ∧
    ((CameraController.mk speed true true false false).update_camera c).eye
      = c.eye ∧
    ((CameraController.mk speed false false true true).update_camera c).eye
      = c.eye := by
  refine ⟨?_, ?_, ?_⟩ <;>
    simp [CameraController.update_camera, v2add, v2sub, v2smul, unit_x2, unit_y2]

/-! ### C4: controller flags follow the last delivered press state -/

lemma process_events_single (cc : CameraController) (e : WindowEvent) :
    ((cc.process_events e).1).is_forward_pressed
        = netKeyState forwardKeys cc.is_forward_pressed [e] ∧
    ((cc.process_events e).1).is_backward_pressed
        = netKeyState backwardKeys cc.is_backward_pressed [e] ∧
    ((cc.process_events e).1).is_left_pressed
        = netKeyState leftKeys cc.is_left_pressed [e] ∧
    ((cc.process_events e).1).is_right_pressed
        = netKeyState rightKeys cc.is_right_pressed [e] := by
  cases e with
  | OtherWindowEvent => exact ⟨rfl, rfl, rfl, rfl⟩
  | KeyboardInput st ok =>
    cases ok with
    | none => exact ⟨rfl, rfl, rfl, rfl⟩
    | some k => cases k <;> cases st <;> exact ⟨rfl, rfl, rfl, rfl⟩

lemma netKeyState_step (ks : List VirtualKeyCode) (init : Bool)
    (e : WindowEvent) (es : List WindowEvent) :
    netKeyState ks init (e :: es) = netKeyState ks (netKeyState ks init [e]) es := by
  cases e with
  | OtherWindowEvent => rfl
  | KeyboardInput st ok =>
    cases ok with
    | none => rfl
    | some k => rfl

lemma applyEvents_cons (cc : CameraController) (e : WindowEvent)
    (es : List WindowEvent) :
    applyEvents cc (e :: es) = applyEvents ((cc.process_events e).1) es := rfl

lemma applyEvents_flags (cc : CameraController) (es : List WindowEvent) :
    (applyEvents cc es).is_forward_pressed
        = netKeyState forwardKeys cc.is_forward_pressed es ∧
    (applyEvents cc es).is_backward_pressed
        = netKeyState backwardKeys cc.is_backward_pressed es ∧
    (applyEvents cc es).is_left_pressed
        = netKeyState leftKeys cc.is_left_pressed es ∧
    (applyEvents cc es).is_right_pressed
        = netKeyState rightKeys cc.is_right_pressed es := by
  induction es generalizing cc with
  | nil => exact ⟨rfl, rfl, rfl, rfl⟩
  | cons e es ih =>
    obtain ⟨h1, h2, h3, h4⟩ := process_events_single cc e
    obtain ⟨i1, i2, i3, i4⟩ := ih ((cc.process_events e).1)
    refine ⟨?_, ?_, ?_, ?_⟩
    · rw [applyEvents_cons, i1, h1, ← netKeyState_step]
    · rw [applyEvents_cons, i2, h2, ← netKeyState_step]
    · rw [applyEvents_cons, i3, h3, ← netKeyState_step]
    · rw [applyEvents_cons, i4, h4, ← netKeyState_step]

lemma process_events_unrecognized (cc : CameraController) (e : WindowEvent)
    (h : recognizedEvent e = false) : cc.process_events e = (cc, false) := by
  cases e with
  | OtherWindowEvent => rfl
  | KeyboardInput st ok =>
    cases ok with
    | none => rfl
    | some k => cases k <;> first | rfl | simp [recognizedEvent] at h

/--
C4: after any finite event sequence, each of the four direction flags
equals the last press state delivered for its key set (W/Up forward,
S/Down backward, A/Left left, D/Right right) — in particular
press, press, release nets to release — and any event that is not a
recognized keyboard input leaves the controller unchanged and is reported
unconsumed (`false`).
-/
theorem process_events_net_press_state (cc : CameraController)
    (es : List WindowEvent) (e : WindowEvent) :
    ((applyEvents cc es).is_forward_pressed
        = netKeyState forwardKeys cc.is_forward_pressed es ∧
     (applyEvents cc es).is_backward_pressed
        = netKeyState backwardKeys cc.is_backward_pressed es ∧
     (applyEvents cc es).is_left_pressed
        = netKeyState leftKeys cc.is_left_pressed es ∧
     (applyEvents cc es).is_right_pressed
        = netKeyState rightKeys cc.is_right_pressed es) ∧
    (recognizedEvent e = false → cc.process_events e = (cc, false)) :=
  ⟨applyEvents_flags cc es, process_events_unrecognized cc e⟩

/-! ### C1: the vertex-layout builder -/

lemma size_pos (f : VertexFormat) :
    (vertex_format_size f).isSome → 0 < (vertex_format_size f).getD 0 := by
  cases f <;> decide

lemma sumSizes_append (a b : List VertexFormat) :
    sumSizes (a ++ b) = sumSizes a + sumSizes b := by
  simp [sumSizes]

lemma attributesFrom_spec (fs : List VertexFormat) (loc off : Nat)
    (h : ∀ f ∈ fs, (vertex_format_size f).isSome) :
    ∃ attrs, attributesFrom loc off fs = some attrs ∧
      attrs.length = fs.length ∧
      ∀ i, i < fs.length →
        attrs.get? i = some ⟨off + sumSizes (fs.take i), loc + i,
          fs.getD i VertexFormat.Float32⟩ := by
  induction fs generalizing loc off with
  | nil =>
    exact ⟨[], rfl, rfl, fun i hi => absurd hi (Nat.not_lt_zero i)⟩
  | cons f fs ih =>
    have hf : (vertex_format_size f).isSome := h f (List.mem_cons_self f fs)
    obtain ⟨sz, hsz⟩ := Option.isSome_iff_exists.mp hf
    obtain ⟨rest, hrest, hlen, hget⟩ :=
      ih (loc + 1) (off + sz) (fun g hg => h g (List.mem_cons_of_mem f hg))
    refine ⟨⟨off, loc, f⟩ :: rest, ?_, ?_, ?_⟩
    · simp [attributesFrom, hsz, hrest]
    · simp [hlen]
    · intro i hi
      cases i with
      | zero =>
        simp [sumSizes]
      | succ j =>
        have hj : j < fs.length := Nat.lt_of_succ_lt_succ hi
        have hj2 := hget j hj
        show rest.get? j = _
        rw [hj2]
        simp [sumSizes, hsz, Nat.add_assoc, Nat.add_comm, Nat.add_left_comm]

lemma sumSizes_take_lt (fs : List VertexFormat)
    (h : ∀ f ∈ fs, (vertex_format_size f).isSome) :
    ∀ j, j ≤ fs.length → ∀ i, i < j →
      sumSizes (fs.take i) < sumSizes (fs.take j) := by
  intro j
  induction j with
  | zero => exact fun _ i hi => absurd hi (Nat.not_lt_zero i)
  | succ j ih =>
    intro hj i hi
    have hjlen : j < fs.length := Nat.lt_of_succ_le hj
    have hstep : sumSizes (fs.take j) < sumSizes (fs.take (j + 1)) := by
      rw [List.take_succ, sumSizes_append]
      have hgj : fs[j]? = some (fs.get ⟨j, hjlen⟩) := by
        rw [List.getElem?_eq_getElem hjlen]
        simp
      have hmem : fs.get ⟨j, hjlen⟩ ∈ fs := List.get_mem fs j hjlen
      have hpos := size_pos (fs.get ⟨j, hjlen⟩) (h _ hmem)
      have htl : sumSizes (fs[j]?.toList)
          = (vertex_format_size (fs.get ⟨j, hjlen⟩)).getD 0 := by
        rw [hgj]
        simp [sumSizes]
      rw [htl]
      omega
    rcases Nat.lt_succ_iff_lt_or_eq.mp hi with h2 | h2
    · exact lt_trans (ih (Nat.le_of_succ_le hj) i h2) hstep
    · rw [h2]; exact hstep

/--
C1: for every base slot `b` and sequence of supported field formats, the
builder succeeds and yields one descriptor per field whose slot is
`b + i` and whose offset is the running sum of the prior fields' byte
sizes; offsets are strictly increasing; and for both concrete layouts of
`card.rs` the sum of the per-field sizes equals the declared
`array_stride`.
-/
theorem attributes_layout (b : Nat) (fs : List VertexFormat)
    (h : ∀ f ∈ fs, (vertex_format_size f).isSome) :
    ∃ attrs, attributes b fs = some attrs ∧
      attrs.length = fs.length ∧
      (∀ i, i < fs.length →
        attrs.get? i = some ⟨sumSizes (fs.take i), b + i,
          fs.getD i VertexFormat.Float32⟩) ∧
      (∀ i j, i < j → j < fs.length → ∀ a a2,
        attrs.get? i = some a → attrs.get? j = some a2 →
          a.offset < a2.offset) ∧
      sumSizes instanceBufferFormats = instanceArrayStride ∧
      sumSizes vertexBufferFormats = vertexArrayStride := by
  obtain ⟨attrs, heq, hlen, hget⟩ := attributesFrom_spec fs b 0 h
  refine ⟨attrs, heq, hlen, ?_, ?_, by decide, by decide⟩
  · intro i hi
    have := hget i hi
    simpa using this
  · intro i j hij hj a a2 hga hga2
    have hi : i < fs.length := lt_trans hij hj
    have h1 := hget i hi
    have h2 := hget j hj
    rw [hga] at h1
    rw [hga2] at h2
    have ha : a = ⟨0 + sumSizes (fs.take i), b + i, fs.getD i VertexFormat.Float32⟩ :=
      Option.some_injective _ h1
    have ha2 : a2 = ⟨0 + sumSizes (fs.take j), b + j, fs.getD j VertexFormat.Float32⟩ :=
      Option.some_injective _ h2
    rw [ha, ha2]
    have := sumSizes_take_lt fs h j (Nat.le_of_lt hj) i hij
    simpa using this

/--
Witness for C1 at the concrete `Instance::BUFFER_LAYOUT` input: base slot
5 and the seven instance field formats, all supported.
-/
theorem attributes_layout_witness :
    (∀ f ∈ instanceBufferFormats, (vertex_format_size f).isSome) ∧
    (∃ attrs, attributes 5 instanceBufferFormats = some attrs ∧
      attrs.length = instanceBufferFormats.length ∧
      (∀ i, i < instanceBufferFormats.length →
        attrs.get? i = some ⟨sumSizes (instanceBufferFormats.take i), 5 + i,
          instanceBufferFormats.getD i VertexFormat.Float32⟩) ∧
      (∀ i j, i < j → j < instanceBufferFormats.length → ∀ a a2,
        attrs.get? i = some a → attrs.get? j = some a2 →
          a.offset < a2.offset) ∧
      sumSizes instanceBufferFormats = instanceArrayStride ∧
      sumSizes vertexBufferFormats = vertexArrayStride) :=
  ⟨by decide, attributes_layout 5 instanceBufferFormats (by decide)⟩

/-! ### C3: the view-projection composition -/

lemma code_vp_entry :
    Camera.build_view_projection_matrix ⟨(0, 0), 1, 1, 1, 3⟩ 2 3 = 0 := by
  norm_num [Camera.build_view_projection_matrix, look_at_rh, ortho,
    OPENGL_TO_WGPU_MATRIX, Vec3.add, Vec3.sub, Vec3.normalize, Vec3.magnitude,
    Vec3.dot, Vec3.cross, unit_y, unit_z, Real.sqrt_one, Matrix.mul_apply,
    Fin.sum_univ_four]

lemma claimed_vp_entry :
    claimed_view_projection ⟨(0, 0), 1, 1, 1, 3⟩ 2 3 = -(1 / 2) := by
  norm_num [claimed_view_projection, look_at_rh, ortho,
    OPENGL_TO_WGPU_MATRIX, Vec3.add, Vec3.sub, Vec3.normalize, Vec3.magnitude,
    Vec3.dot, Vec3.cross, unit_y, unit_z, Real.sqrt_one, Matrix.mul_apply,
    Fin.sum_univ_four]

/--
Counterexample to C3 as stated: for the camera with `eye = (0, 0)`,
`aspect = 1`, `zoom = 1`, `znear = 1`, `zfar = 3`, the code's matrix and
the matrix built with a look-at whose eye point is at `z = 0` looking
toward `z = -1` differ (entry (2, 3) is `0` versus `-1/2`): the code
places the eye point at `z = 1` looking toward `z = 0`.
-/
theorem view_projection_eye_counterexample :
    Camera.build_view_projection_matrix ⟨(0, 0), 1, 1, 1, 3⟩ ≠
      claimed_view_projection ⟨(0, 0), 1, 1, 1, 3⟩ := by
  intro hEq
  have h23 : Camera.build_view_projection_matrix ⟨(0, 0), 1, 1, 1, 3⟩ 2 3 =
      claimed_view_projection ⟨(0, 0), 1, 1, 1, 3⟩ 2 3 := by rw [hEq]
  rw [code_vp_entry, claimed_vp_entry] at h23
  norm_num at h23

/--
C3 (amended): for every camera state the built matrix is exactly the
product — correction matrix leftmost — of the fixed depth-remap matrix,
the orthographic projection with `half_width = aspect * zoom`,
`half_height = zoom` and depth range `[znear, zfar]`, and the
right-handed look-at view whose eye point is at `z = 1` looking toward
`z = 0` (not `z = 0` toward `z = -1` as the claim put it) with up
vector `+Y`.
-/
theorem view_projection_composition (c : Camera) :
    c.build_view_projection_matrix = amended_view_projection c := by
  simp [Camera.build_view_projection_matrix, amended_view_projection,
    Vec3.add, unit_z, unit_y]

end Cards
